import Mathlib

/-!
Shallow embedding of the CalorieWise client-side state orchestration layer.

Conventions of the embedding:
* JavaScript numbers are modelled as rationals (ℚ); `Math.round` is modelled
  as `⌊x + 1/2⌋`, which is its exact behaviour on real values.
* Calendar-date strings (`YYYY-MM-DD`) and ISO timestamps are modelled as
  integers: both string equality and `Date.getTime()` comparison on such
  strings coincide with equality/ordering of the encoded integers, because
  the encoding of a date string into its epoch time is injective and
  monotone.
* `Array.prototype.sort` with the comparator `(a, b) => ta - tb` is a stable
  sort by the key; it is modelled by insertion sort with the non-strict key
  order, which is the stable sorting function for that key.
* Fallible/asynchronous request outcomes are modelled with `Except`/`Option`
  values passed explicitly.
-/

set_option maxRecDepth 8000

namespace CalorieWise

/-- Nutrition quad, from `types` usage (`calories/protein/carbs/fat`). -/
structure Nutrition where
  calories : ℚ
  protein : ℚ
  carbs : ℚ
  fat : ℚ
deriving DecidableEq, Repr

/-- Element-wise addition, as in the `reduce` accumulator of `addMeal`
(App.tsx lines 214-219). -/
def Nutrition.add (a b : Nutrition) : Nutrition :=
  { calories := a.calories + b.calories
    protein := a.protein + b.protein
    carbs := a.carbs + b.carbs
    fat := a.fat + b.fat }

/-- The `reduce` initial accumulator `{calories: 0, protein: 0, carbs: 0, fat: 0}`. -/
def Nutrition.zero : Nutrition := { calories := 0, protein := 0, carbs := 0, fat := 0 }

/-- Food item: name plus nutrition quad (meal-analysis schema, part_006). -/
structure FoodItem where
  name : String
  nutrition : Nutrition
deriving DecidableEq, Repr

/-- Meal, as constructed in MealLogger.tsx lines 124-131. -/
structure Meal where
  id : String
  name : String
  timestamp : String
  items : List FoodItem
  totalNutrition : Nutrition
  imageUrl : Option String := none
deriving DecidableEq, Repr

/-- Daily log keyed by calendar date (modelled as Int, see file header). -/
structure DailyLog where
  date : Int
  meals : List Meal
  totalNutrition : Nutrition
  weight : Option ℚ := none
deriving DecidableEq, Repr

inductive Sex where
  | male
  | female
deriving DecidableEq, Repr

/-- Goal enum (`Goal.Lose` / `Goal.Gain` / `Goal.Maintain`), used in
`calculateGoals` (part_005). -/
inductive Goal where
  | lose
  | gain
  | maintain
deriving DecidableEq, Repr

/-- User profile, fields as used by `calculateGoals`, `addWeightEntry` and
ProfileSetup.tsx (height is stored in inches). -/
structure UserProfile where
  name : String
  age : ℚ
  sex : Sex
  height : ℚ
  weight : ℚ
  activityLevel : ℚ
  goal : Goal
  targetWeight : ℚ
  registrationDate : Int
deriving DecidableEq, Repr

/-- Derived calorie goals (part_005 return value); all fields rounded. -/
structure CalorieGoals where
  bmr : ℤ
  targetCalories : ℤ
  targetProtein : ℤ
  targetCarbs : ℤ
  targetFat : ℤ
deriving DecidableEq, Repr

/-- JavaScript `Math.round`: round half toward positive infinity. -/
def jsRound (x : ℚ) : ℤ := ⌊x + 1 / 2⌋

/-- Embedding of `calculateGoals` (src/unnamed/part_005 lines 4-43).
The `switch` default case coincides with the `Goal.Maintain` case. -/
def calculateGoals (profile : UserProfile) : CalorieGoals :=
  let heightInCm : ℚ := profile.height * (254 / 100)
  let bmr : ℚ :=
    if profile.sex = Sex.male then
      10 * profile.weight + (625 / 100) * heightInCm - 5 * profile.age + 5
    else
      10 * profile.weight + (625 / 100) * heightInCm - 5 * profile.age - 161
  let tdee : ℚ := bmr * profile.activityLevel
  let targetCalories : ℚ :=
    match profile.goal with
    | Goal.lose => tdee - 500
    | Goal.gain => tdee + 500
    | Goal.maintain => tdee
  let targetCarbs : ℚ := targetCalories * (40 / 100) / 4
  let targetProtein : ℚ := targetCalories * (30 / 100) / 4
  let targetFat : ℚ := targetCalories * (30 / 100) / 9
  { bmr := jsRound bmr
    targetCalories := jsRound targetCalories
    targetProtein := jsRound targetProtein
    targetCarbs := jsRound targetCarbs
    targetFat := jsRound targetFat }

/-- Claim-side Mifflin-St Jeor BMR, written from the words of claim C10:
`10*weight + 6.25*(height in inches * 2.54) - 5*age`, plus 5 for male and
minus 161 otherwise. -/
def claimBMR (p : UserProfile) : ℚ :=
  10 * p.weight + (625 / 100) * (p.height * (254 / 100)) - 5 * p.age +
    (if p.sex = Sex.male then 5 else -161)

/-- Claim-side TDEE: BMR times the activity multiplier. -/
def claimTDEE (p : UserProfile) : ℚ := claimBMR p * p.activityLevel

/-- Claim-side target calories: TDEE minus 500 for lose, plus 500 for gain,
TDEE for maintain. -/
def claimTargetCalories (p : UserProfile) : ℚ :=
  match p.goal with
  | Goal.lose => claimTDEE p - 500
  | Goal.gain => claimTDEE p + 500
  | Goal.maintain => claimTDEE p

/-- C10: for every profile, the derived goals satisfy the Mifflin-St Jeor BMR
formula, TDEE = BMR times the activity multiplier, and target calories equal
TDEE adjusted by the goal (minus 500 lose, plus 500 gain, unchanged
maintain), each rounded to the nearest integer (JavaScript rounding, half
toward positive infinity). -/
theorem calculateGoals_matches_formula (p : UserProfile) :
    (calculateGoals p).bmr = jsRound (claimBMR p) ∧
    (calculateGoals p).targetCalories = jsRound (claimTargetCalories p) := by
  cases hs : p.sex <;> cases hg : p.goal <;>
    simp [calculateGoals, claimBMR, claimTDEE, claimTargetCalories, hs, hg] <;>
    ring_nf <;> simp

/-! ## addMeal (App.tsx lines 206-231) -/

/-- The code's nutrition aggregate: `meals.reduce((acc, m) => add, zero)`. -/
def mealsNutritionSum (meals : List Meal) : Nutrition :=
  meals.foldl (fun acc m => acc.add m.totalNutrition) Nutrition.zero

/-- Embedding of `addMeal` on the `dailyLogs` collection (App.tsx lines
206-231): update the first log whose date matches (append the meal, recompute
the aggregate over all meals), else push a fresh log holding just this meal. -/
def addMeal : List DailyLog → Meal → Int → List DailyLog
  | [], meal, date =>
      [{ date := date, meals := [meal], totalNutrition := meal.totalNutrition }]
  | log :: rest, meal, date =>
      if log.date = date then
        { log with
            meals := log.meals ++ [meal]
            totalNutrition := mealsNutritionSum (log.meals ++ [meal]) } :: rest
      else
        log :: addMeal rest meal date

/-- First log whose date matches, mirroring `findIndex(log => log.date === dateStr)`. -/
def findLog : List DailyLog → Int → Option DailyLog
  | [], _ => none
  | log :: rest, d => if log.date = d then some log else findLog rest d

/-- The sublist of logs whose date differs from `d` (used to state that logs
for other dates are untouched). -/
def dropDate : List DailyLog → Int → List DailyLog
  | [], _ => []
  | log :: rest, d => if log.date = d then dropDate rest d else log :: dropDate rest d

theorem Nutrition.zero_add (n : Nutrition) : Nutrition.zero.add n = n := by
  cases n
  simp [Nutrition.add, Nutrition.zero]

theorem mealsNutritionSum_singleton (m : Meal) :
    mealsNutritionSum [m] = m.totalNutrition := by
  simp [mealsNutritionSum, Nutrition.zero_add]

/-- C4: after every `addMeal meal date` call, the log for `date` exists, its
meal list is the previous list with the new meal appended last (or just the
new meal when no log existed), its `totalNutrition` is the element-wise sum
over all its meals, and the logs for all other dates are unchanged. -/
theorem addMeal_aggregate_invariant (logs : List DailyLog) (meal : Meal) (d : Int) :
    (∃ l, findLog (addMeal logs meal d) d = some l ∧
      l.meals = (match findLog logs d with
        | some old => old.meals ++ [meal]
        | none => [meal]) ∧
      l.totalNutrition = mealsNutritionSum l.meals) ∧
    dropDate (addMeal logs meal d) d = dropDate logs d := by
  induction logs with
  | nil =>
      refine ⟨⟨{ date := d, meals := [meal], totalNutrition := meal.totalNutrition },
        ?_, ?_, ?_⟩, ?_⟩ <;>
        simp [addMeal, findLog, dropDate, mealsNutritionSum_singleton]
  | cons log rest ih =>
      by_cases h : log.date = d
      · refine ⟨⟨{ log with
            meals := log.meals ++ [meal]
            totalNutrition := mealsNutritionSum (log.meals ++ [meal]) },
          ?_, ?_, ?_⟩, ?_⟩ <;>
          simp [addMeal, findLog, dropDate, h]
      · obtain ⟨⟨l, hfind, hmeals, hsum⟩, hdrop⟩ := ih
        refine ⟨⟨l, ?_, ?_, hsum⟩, ?_⟩ <;>
          simp [addMeal, findLog, dropDate, h, hfind, hmeals, hdrop]

/-! ## addWeightEntry (App.tsx lines 233-264) -/

/-- Weight entry: ISO date (modelled as Int) plus weight value. -/
structure WeightEntry where
  date : Int
  weight : ℚ
deriving DecidableEq, Repr

/-- Key order used by the comparator `(a, b) => getTime(a.date) - getTime(b.date)`. -/
def entryLe (a b : WeightEntry) : Prop := a.date ≤ b.date

instance : DecidableRel entryLe := fun a b => Int.decLe a.date b.date

instance : IsTotal WeightEntry entryLe := ⟨fun a b => Int.le_total a.date b.date⟩

instance : IsTrans WeightEntry entryLe := ⟨fun _ _ _ h1 h2 => le_trans h1 h2⟩

/-- Model of `array.sort(comparator)`: JavaScript sort is a stable sort by
the comparator key, and insertion sort with the non-strict key order is the
stable sorting function for that key. -/
def sortByDate (l : List WeightEntry) : List WeightEntry := l.insertionSort entryLe

/-- The weight-history update of `addWeightEntry` (App.tsx lines 235-236):
append the new entry, then sort the whole history by date. -/
def addWeightEntryLog (weightLog : List WeightEntry) (weight : ℚ) (date : Int) :
    List WeightEntry :=
  sortByDate (weightLog ++ [{ date := date, weight := weight }])

/-- A sequence of `addWeightEntry` calls (weight, date), applied from the
empty history. -/
def runWeightEntries (calls : List (ℚ × Int)) : List WeightEntry :=
  calls.foldl (fun log c => addWeightEntryLog log c.1 c.2) []

/-- The daily-log upsert of `addWeightEntry` (App.tsx lines 248-260): set the
weight on the first log whose date matches, else push an empty-meals log
carrying the weight. -/
def upsertWeightLog : List DailyLog → ℚ → Int → List DailyLog
  | [], w, d =>
      [{ date := d, meals := [], totalNutrition := Nutrition.zero, weight := some w }]
  | log :: rest, w, d =>
      if log.date = d then { log with weight := some w } :: rest
      else log :: upsertWeightLog rest w d

/-- Embedding of the whole `addWeightEntry` handler (App.tsx lines 233-264):
returns (updated profile, updated weight history, updated daily logs).
`today` is the current calendar date; the profile weight is updated only when
the logged date equals it. -/
def addWeightEntry (today : Int) (userProfile : Option UserProfile)
    (weightLog : List WeightEntry) (dailyLogs : List DailyLog)
    (w : ℚ) (d : Int) :
    Option UserProfile × List WeightEntry × List DailyLog :=
  let newWeightLog := addWeightEntryLog weightLog w d
  let updatedProfile :=
    match userProfile with
    | some p => if d = today then some { p with weight := w } else some p
    | none => none
  (updatedProfile, newWeightLog, upsertWeightLog dailyLogs w d)

theorem foldl_addWeightEntryLog_perm (calls : List (ℚ × Int)) :
    ∀ log : List WeightEntry,
      (calls.foldl (fun log c => addWeightEntryLog log c.1 c.2) log).Perm
        (log ++ calls.map fun c => { date := c.2, weight := c.1 }) := by
  induction calls with
  | nil => intro log; simp
  | cons c cs ih =>
      intro log
      have h1 := ih (addWeightEntryLog log c.1 c.2)
      have h2 : (addWeightEntryLog log c.1 c.2).Perm
          (log ++ [{ date := c.2, weight := c.1 }]) :=
        List.perm_insertionSort entryLe _
      have h3 : ((log ++ [{ date := c.2, weight := c.1 }]) ++ cs.map fun c =>
            ({ date := c.2, weight := c.1 } : WeightEntry))
          = log ++ (c :: cs).map fun c =>
            ({ date := c.2, weight := c.1 } : WeightEntry) := by simp
      simpa using h1.trans (h3 ▸ h2.append_right _)

/-- Any history produced by `addWeightEntryLog` is sorted by date. -/
theorem addWeightEntryLog_sorted (log : List WeightEntry) (w : ℚ) (d : Int) :
    List.Sorted entryLe (addWeightEntryLog log w d) :=
  List.sorted_insertionSort entryLe _

theorem pairwise_and {α : Type} {R S : α → α → Prop} :
    ∀ {l : List α}, l.Pairwise R → l.Pairwise S →
      l.Pairwise fun a b => R a b ∧ S a b := by
  intro l hR hS
  induction l with
  | nil => exact List.Pairwise.nil
  | cons a l ih =>
      rw [List.pairwise_cons] at hR hS ⊢
      exact ⟨fun b hb => ⟨hR.1 b hb, hS.1 b hb⟩, ih hR.2 hS.2⟩

theorem foldl_addWeightEntryLog_sorted (calls : List (ℚ × Int)) :
    ∀ log : List WeightEntry, List.Sorted entryLe log →
      List.Sorted entryLe (calls.foldl (fun log c => addWeightEntryLog log c.1 c.2) log) := by
  induction calls with
  | nil => intro log h; exact h
  | cons c cs ih =>
      intro log _
      exact ih (addWeightEntryLog log c.1 c.2) (addWeightEntryLog_sorted log c.1 c.2)

/-- C5 counterexample: adding two entries for the same date (weight 70 then
71 on date 5) yields a history with two equal dates, which is not in strict
chronological order, refuting the claim's strictness at this input. -/
theorem runWeightEntries_not_strictly_sorted :
    runWeightEntries [(70, 5), (71, 5)] =
      [{ date := 5, weight := 70 }, { date := 5, weight := 71 }] ∧
    ¬ List.Sorted (fun a b : WeightEntry => a.date < b.date)
        (runWeightEntries [(70, 5), (71, 5)]) := by
  refine ⟨rfl, ?_⟩
  intro h
  rw [show runWeightEntries [(70, 5), (71, 5)] =
      [{ date := 5, weight := 70 }, { date := 5, weight := 71 }] from rfl,
    List.sorted_cons] at h
  exact absurd (h.1 _ (List.mem_cons_self _ _)) (lt_irrefl (5 : Int))

/-- C5 (amended): for every sequence of addWeightEntry calls, in any order of
dates, the history after each call is the multiset of all entries added so
far, sorted non-decreasing by date; the order is strictly chronological
whenever all added dates are distinct. -/
theorem runWeightEntries_sorted_perm (calls : List (ℚ × Int)) :
    (runWeightEntries calls).Perm
      (calls.map fun c => { date := c.2, weight := c.1 }) ∧
    List.Sorted entryLe (runWeightEntries calls) ∧
    ((calls.map Prod.snd).Nodup →
      List.Sorted (fun a b : WeightEntry => a.date < b.date)
        (runWeightEntries calls)) := by
  have hperm : (runWeightEntries calls).Perm
      (calls.map fun c => { date := c.2, weight := c.1 }) := by
    simpa [runWeightEntries] using foldl_addWeightEntryLog_perm calls []
  have hsorted : List.Sorted entryLe (runWeightEntries calls) :=
    foldl_addWeightEntryLog_sorted calls [] List.sorted_nil
  refine ⟨hperm, hsorted, fun hnodup => ?_⟩
  have hmap : ((calls.map fun c =>
      ({ date := c.2, weight := c.1 } : WeightEntry)).map WeightEntry.date)
      = calls.map Prod.snd := by
    simp [List.map_map, Function.comp]
  have hnodup' : ((runWeightEntries calls).map WeightEntry.date).Nodup := by
    refine ((hperm.map WeightEntry.date).nodup_iff).mpr ?_
    rw [hmap]; exact hnodup
  have hne : (runWeightEntries calls).Pairwise fun a b => a.date ≠ b.date :=
    (List.pairwise_map).mp hnodup'
  have hle : (runWeightEntries calls).Pairwise entryLe := hsorted
  exact (pairwise_and hle hne).imp fun h => lt_of_le_of_ne h.1 h.2

/-- Witness for the amended C5 at a concrete call sequence with distinct
dates added out of order. -/
theorem runWeightEntries_sorted_perm_witness :
    List.Sorted (fun a b : WeightEntry => a.date < b.date)
      (runWeightEntries [(70, 3), (60, 1)]) :=
  (runWeightEntries_sorted_perm [(70, 3), (60, 1)]).2.2 (by decide)

theorem upsertWeightLog_spec (logs : List DailyLog) (w : ℚ) (d : Int) :
    ∃ l, findLog (upsertWeightLog logs w d) d = some l ∧ l.weight = some w ∧
      (findLog logs d = none → l.meals = []) ∧
      (∀ old, findLog logs d = some old → l = { old with weight := some w }) := by
  induction logs with
  | nil =>
      refine ⟨{ date := d, meals := [], totalNutrition := Nutrition.zero,
                weight := some w }, ?_⟩
      simp [upsertWeightLog, findLog]
  | cons log rest ih =>
      by_cases h : log.date = d
      · refine ⟨{ log with weight := some w }, ?_⟩
        simp [upsertWeightLog, findLog, h]
      · obtain ⟨l, hfind, hw, hnone, hsome⟩ := ih
        exact ⟨l, by simp [upsertWeightLog, findLog, h, hfind],
          hw, by simpa [findLog, h] using hnone,
          by simpa [findLog, h] using hsome⟩

/-- C6: calling addWeightEntry with the current calendar date sets the
profile weight to the new value; calling it with any other (in particular any
past) date leaves the profile unchanged; in both cases the daily log for the
date carries the new weight, an empty-meals log being created if none
existed. -/
theorem addWeightEntry_profile_rule (today : Int) (p : UserProfile)
    (weightLog : List WeightEntry) (dailyLogs : List DailyLog) (w : ℚ) (d : Int) :
    (d = today →
      (addWeightEntry today (some p) weightLog dailyLogs w d).1 =
        some { p with weight := w }) ∧
    (d ≠ today →
      (addWeightEntry today (some p) weightLog dailyLogs w d).1 = some p) ∧
    ∃ l, findLog (addWeightEntry today (some p) weightLog dailyLogs w d).2.2 d
        = some l ∧
      l.weight = some w ∧
      (findLog dailyLogs d = none → l.meals = []) := by
  obtain ⟨l, hfind, hw, hnone, -⟩ := upsertWeightLog_spec dailyLogs w d
  exact ⟨fun h => by simp [addWeightEntry, h],
    fun h => by simp [addWeightEntry, h],
    l, hfind, hw, hnone⟩

/-- Witness for C6 at a concrete input: logging 72 for the current date
updates the profile weight, and the daily log for that date carries it. -/
theorem addWeightEntry_profile_rule_witness :
    (addWeightEntry 10
      (some { name := "A", age := 30, sex := Sex.male, height := 70,
              weight := 70, activityLevel := 55 / 40, goal := Goal.lose,
              targetWeight := 65, registrationDate := 0 })
      [] [] 72 10).1 =
    some { name := "A", age := 30, sex := Sex.male, height := 70,
           weight := 72, activityLevel := 55 / 40, goal := Goal.lose,
           targetWeight := 65, registrationDate := 0 } :=
  (addWeightEntry_profile_rule 10 _ [] [] 72 10).1 rfl

/-! ## Chat sessions and handleSendMessage (App.tsx lines 292-394) -/

inductive Role where
  | user
  | model
deriving DecidableEq, Repr

/-- Grounding citation (uri + title), as mapped at App.tsx line 353. -/
structure GroundingChunk where
  uri : String
  title : String
deriving DecidableEq, Repr

/-- Chat message. `parts` models the `parts: [{text: ...}]` list, one text
per part. -/
structure ChatMessage where
  id : String
  role : Role
  parts : List String
  timestamp : String
  grounding : Option (List GroundingChunk) := none
deriving DecidableEq, Repr

structure ChatSession where
  id : String
  title : String
  history : List ChatMessage
  createdAt : String
deriving DecidableEq, Repr

/-- One streamed chunk: a text delta plus optionally a fresh grounding set. -/
structure StreamChunk where
  text : String
  grounding : Option (List GroundingChunk) := none
deriving DecidableEq, Repr

/-- Session title derivation (App.tsx line 334):
`message.substring(0, 30) + (message.length > 30 ? '...' : '')`. -/
def deriveTitle (message : String) : String :=
  message.take 30 ++ (if 30 < message.length then "..." else "")

/-- The Idle-to-Sending update (App.tsx lines 330-338): append the user
message and the model placeholder to the active session, deriving the title
on a first message. -/
def appendTurn (sessions : List ChatSession) (activeId : String)
    (message : String) (userMsg placeholder : ChatMessage) : List ChatSession :=
  sessions.map fun session =>
    if session.id = activeId then
      { session with
          title := if session.history.length = 0 then deriveTitle message
                   else session.title
          history := session.history ++ [userMsg, placeholder] }
    else session

/-- The per-chunk / final-state patch (App.tsx lines 355-363 and 366-374):
replace the parts of the message matching `modelMsgId` inside the active
session with the accumulated text, and its grounding with the latest-seen
set when one exists. -/
def applyModelText (sessions : List ChatSession) (activeId modelMsgId : String)
    (text : String) (latest : Option (List GroundingChunk)) : List ChatSession :=
  sessions.map fun session =>
    if session.id = activeId then
      { session with
          history := session.history.map fun msg =>
            if msg.id = modelMsgId then
              { msg with
                  parts := [text]
                  grounding := match latest with
                    | some g => some g
                    | none => msg.grounding }
            else msg }
    else session

/-- The catch-branch patch (App.tsx lines 380-388): replace the parts of the
message matching `modelMsgId` with the error text (grounding untouched). -/
def applyErrorText (sessions : List ChatSession) (activeId modelMsgId : String)
    (errText : String) : List ChatSession :=
  sessions.map fun session =>
    if session.id = activeId then
      { session with
          history := session.history.map fun msg =>
            if msg.id = modelMsgId then { msg with parts := [errText] }
            else msg }
    else session

/-- The for-await loop (App.tsx lines 347-364): fold over the chunks,
accumulating the concatenated response, the latest grounding set, and the
in-memory session list (each chunk applies a functional state update to the
previous in-memory value). -/
def runStream (activeId modelMsgId : String) (start : List ChatSession)
    (chunks : List StreamChunk) :
    String × Option (List GroundingChunk) × List ChatSession :=
  chunks.foldl
    (fun st c =>
      let text := st.1 ++ c.text
      let latest := match c.grounding with
        | some g => some g
        | none => st.2.1
      (text, latest, applyModelText st.2.2 activeId modelMsgId text latest))
    ("", none, start)

/-- Result of one send-message run: the in-memory session list at completion,
the session list handed to the persistence save, and the AI-replying flag. -/
structure SendResult where
  memory : List ChatSession
  persisted : List ChatSession
  aiReplying : Bool
deriving DecidableEq, Repr

/-- Embedding of `handleSendMessage` (App.tsx lines 321-394). `sessions` is
the `chatSessions` value captured by the handler's closure; `outcome` is
either the streamed chunk list (success) or the error message (failure).
Note the success and error persists are computed from the captured
`sessions` value (App.tsx lines 366 and 380), not from the updated list. -/
def handleSendMessage (sessions : List ChatSession) (activeId : String)
    (userMsg placeholder : ChatMessage) (message : String)
    (outcome : Except String (List StreamChunk)) : SendResult :=
  let updatedSessions := appendTurn sessions activeId message userMsg placeholder
  match outcome with
  | Except.ok chunks =>
      let res := runStream activeId placeholder.id updatedSessions chunks
      let finalSessions := applyModelText sessions activeId placeholder.id res.1 res.2.1
      { memory := res.2.2, persisted := finalSessions, aiReplying := false }
  | Except.error e =>
      let errorSessions := applyErrorText sessions activeId placeholder.id
        ("Error: " ++ e)
      { memory := errorSessions, persisted := errorSessions, aiReplying := false }

/-- The message list handed to the streaming chat fetcher: `handleSendMessage`
passes `currentSession.history` (the updated history, App.tsx lines 342-345)
and `continueChat` maps it to contents and then pushes the user message once
more (part_006 lines 409-414). -/
def sentChatContents (sessions : List ChatSession) (activeId : String)
    (message : String) (userMsg placeholder : ChatMessage) :
    Option (List (Role × List String)) :=
  let updatedSessions := appendTurn sessions activeId message userMsg placeholder
  match updatedSessions.find? (fun s => s.id == activeId) with
  | some cur =>
      some ((cur.history.map fun h => (h.role, h.parts)) ++ [(Role.user, [message])])
  | none => none

/-- Concrete scenario used to evaluate the chat claims: a single fresh
session with empty history, user sends "hi". -/
def demoSession : ChatSession :=
  { id := "c1", title := "New Chat", history := [], createdAt := "t0" }

def demoUserMsg : ChatMessage :=
  { id := "u1", role := Role.user, parts := ["hi"], timestamp := "t1" }

def demoPlaceholder : ChatMessage :=
  { id := "m1", role := Role.model, parts := [""], timestamp := "t1" }

def demoSend (outcome : Except String (List StreamChunk)) : SendResult :=
  handleSendMessage [demoSession] "c1" demoUserMsg demoPlaceholder "hi" outcome

/-- C1: at the concrete input (one empty session, message "hi", stream
yielding "Hello"), the collection handed to the persistence save is the
pre-send session list — it lacks the user message and the streamed model
text — and differs from the in-memory session list at completion time,
which does hold both messages with the full streamed text. -/
theorem sendMessage_success_persists_stale_sessions :
    (demoSend (Except.ok [{ text := "Hello" }])).persisted = [demoSession] ∧
    (demoSend (Except.ok [{ text := "Hello" }])).memory =
      [{ demoSession with
          title := "hi"
          history := [demoUserMsg, { demoPlaceholder with parts := ["Hello"] }] }] ∧
    (demoSend (Except.ok [{ text := "Hello" }])).memory ≠
      (demoSend (Except.ok [{ text := "Hello" }])).persisted := by
  refine ⟨?_, ?_, ?_⟩ <;> decide

/-- C2: at the concrete input (one empty session, message "hi", failing
stream with message "boom"), both the in-memory and the persisted session
lists revert to the pre-send state: the user message and the placeholder
disappear and no error text is recorded anywhere, and only the AI-replying
flag is cleared. -/
theorem sendMessage_error_drops_messages :
    (demoSend (Except.error "boom")).memory = [demoSession] ∧
    (demoSend (Except.error "boom")).persisted = [demoSession] ∧
    (demoSend (Except.error "boom")).aiReplying = false := by
  refine ⟨?_, ?_, ?_⟩ <;> decide

/-- C3: at the concrete input, the message list given to the streaming chat
fetcher is the prior history plus the user message, plus the empty model
placeholder, plus the user message a second time — not the prior history
plus the user message exactly once without the placeholder. -/
theorem sentChatContents_includes_placeholder :
    sentChatContents [demoSession] "c1" "hi" demoUserMsg demoPlaceholder =
      some [(Role.user, ["hi"]), (Role.model, [""]), (Role.user, ["hi"])] ∧
    sentChatContents [demoSession] "c1" "hi" demoUserMsg demoPlaceholder ≠
      some [(Role.user, ["hi"])] := by
  refine ⟨?_, ?_⟩ <;> decide

/-! ## Auth state handling and guest migration (App.tsx lines 48-130) -/

/-- Named workout detail parameter (part_006 workout schema). -/
structure WorkoutDetail where
  name : String
  value : String
deriving DecidableEq, Repr

structure Workout where
  exercise : String
  sets : String
  reps : String
  notes : Option String := none
  details : List WorkoutDetail
  imageUrl : Option String := none
deriving DecidableEq, Repr

structure WorkoutSession where
  name : String
  workouts : List Workout
deriving DecidableEq, Repr

structure DailyWorkout where
  day : String
  focus : String
  sessions : List WorkoutSession
deriving DecidableEq, Repr

structure WorkoutPlan where
  planName : String
  description : String
  weeklySchedule : List DailyWorkout
deriving DecidableEq, Repr

/-- The per-user stored snapshot, `UserData` in part_007 lines 51-58. -/
structure UserData where
  userProfile : Option UserProfile
  dailyLogs : List DailyLog
  workoutPlan : Option WorkoutPlan
  weightLog : List WeightEntry
  chatSessions : List ChatSession
  activeChatSessionId : Option String
deriving DecidableEq, Repr

/-- The empty snapshot loaded for a brand-new user (App.tsx lines 105-113). -/
def emptyUserData : UserData :=
  { userProfile := none, dailyLogs := [], workoutPlan := none,
    weightLog := [], chatSessions := [], activeChatSessionId := none }

/-- Outcome of the logged-in branch of the auth-state handler: the snapshot
loaded into memory, the guest-data ref afterwards, and the snapshots written
to the remote store (in order). -/
structure AuthResult where
  memory : UserData
  guestRef : Option UserData
  saves : List UserData
deriving DecidableEq, Repr

/-- Embedding of the logged-in branch of the `onAuthStateChanged` handler
(App.tsx lines 84-113): `remote` is the result of `getUserData` and
`guestRef` the value captured by `handleSignInAttempt`. If the remote
snapshot exists and has a profile it is loaded; else a captured guest
snapshot is saved under the identity, loaded, and the ref cleared; else the
empty snapshot is loaded. -/
def handleAuthUser (remote : Option UserData) (guestRef : Option UserData) :
    AuthResult :=
  match remote with
  | some d =>
      if d.userProfile.isSome then
        { memory := d, guestRef := guestRef, saves := [] }
      else
        match guestRef with
        | some g => { memory := g, guestRef := none, saves := [g] }
        | none => { memory := emptyUserData, guestRef := guestRef, saves := [] }
  | none =>
      match guestRef with
      | some g => { memory := g, guestRef := none, saves := [g] }
      | none => { memory := emptyUserData, guestRef := guestRef, saves := [] }

/-- Remote document resulting from `saveUserData(uid, snapshot)` with a
complete snapshot (part_007 lines 105-120): the set-merge write receives all
six top-level fields, so every stored top-level field is overwritten and the
resulting document is the snapshot itself, whatever was stored before. -/
def saveFullSnapshot (_old : Option UserData) (snap : UserData) : UserData :=
  snap

/-- Guest snapshot used as the concrete witness input. -/
def demoProfile : UserProfile :=
  { name := "A", age := 30, sex := Sex.male, height := 70, weight := 70,
    activityLevel := 55 / 40, goal := Goal.lose, targetWeight := 65,
    registrationDate := 0 }

def demoGuestData : UserData :=
  { userProfile := some demoProfile, dailyLogs := [], workoutPlan := none,
    weightLog := [{ date := 0, weight := 70 }], chatSessions := [],
    activeChatSessionId := none }

/-- C7: when a guest snapshot with a non-null profile was captured at
sign-in-attempt time and the remote store holds no snapshot with a profile
for the identity, the handler persists the guest snapshot under the identity
and loads it: the in-memory snapshot and the resulting remote document both
equal the captured guest snapshot (and the ref is cleared). -/
theorem guest_migration_preserves_snapshot (remote : Option UserData)
    (g : UserData) (p : UserProfile) (_hg : g.userProfile = some p)
    (hr : remote = none ∨ ∃ d, remote = some d ∧ d.userProfile = none) :
    (handleAuthUser remote (some g)).memory = g ∧
    (handleAuthUser remote (some g)).saves = [g] ∧
    saveFullSnapshot remote g = g ∧
    (handleAuthUser remote (some g)).guestRef = none := by
  rcases hr with hr | ⟨d, hd, hdp⟩
  · simp [handleAuthUser, saveFullSnapshot, hr]
  · simp [handleAuthUser, saveFullSnapshot, hd, hdp]

/-- Witness for C7: concrete guest snapshot, no remote document. -/
theorem guest_migration_preserves_snapshot_witness :
    (handleAuthUser none (some demoGuestData)).memory = demoGuestData ∧
    (handleAuthUser none (some demoGuestData)).saves = [demoGuestData] ∧
    saveFullSnapshot none demoGuestData = demoGuestData ∧
    (handleAuthUser none (some demoGuestData)).guestRef = none :=
  guest_migration_preserves_snapshot none demoGuestData demoProfile rfl
    (Or.inl rfl)

/-- C8: when the remote snapshot exists and has a non-null profile, it is
loaded into memory verbatim and nothing is written to the remote store,
whatever guest snapshot (if any) was captured: the captured snapshot has no
effect on the loaded state or the store. -/
theorem existing_remote_data_wins (d : UserData) (p : UserProfile)
    (guestRef : Option UserData) (hd : d.userProfile = some p) :
    (handleAuthUser (some d) guestRef).memory = d ∧
    (handleAuthUser (some d) guestRef).saves = [] := by
  simp [handleAuthUser, hd]

/-- Witness for C8: concrete remote snapshot with a profile and a competing
captured guest snapshot. -/
theorem existing_remote_data_wins_witness :
    (handleAuthUser (some demoGuestData)
      (some { emptyUserData with chatSessions := [demoSession] })).memory =
      demoGuestData ∧
    (handleAuthUser (some demoGuestData)
      (some { emptyUserData with chatSessions := [demoSession] })).saves = [] :=
  existing_remote_data_wins demoGuestData demoProfile _ rfl


/-! ## Payload sanitization and save-merge (part_007 lines 78-120) -/

/-- JavaScript values as seen by `removeUndefinedValues`: undefined, null,
primitives, arrays and plain objects (ordered key/value fields). -/
inductive Val where
  | undef : Val
  | null : Val
  | num : ℚ → Val
  | str : String → Val
  | bool : Bool → Val
  | arr : List Val → Val
  | obj : List (String × Val) → Val
deriving Repr

/-- The `value !== undefined` test. -/
def Val.isUndef : Val → Bool
  | Val.undef => true
  | _ => false

mutual

/-- Embedding of `removeUndefinedValues` (part_007 lines 80-101): a null or
undefined value becomes null, arrays are mapped recursively, plain objects
drop the keys whose value is undefined and recurse on the rest, and other
values pass through. -/
def removeUndefinedValues : Val → Val
  | Val.undef => Val.null
  | Val.null => Val.null
  | Val.num q => Val.num q
  | Val.str s => Val.str s
  | Val.bool b => Val.bool b
  | Val.arr xs => Val.arr (removeUndefinedArr xs)
  | Val.obj fs => Val.obj (removeUndefinedObj fs)

/-- The `obj.map(item => removeUndefinedValues(item))` branch. -/
def removeUndefinedArr : List Val → List Val
  | [] => []
  | v :: vs => removeUndefinedValues v :: removeUndefinedArr vs

/-- The plain-object branch: keys whose value is undefined are omitted
(`if (value !== undefined)`), the rest are sanitized recursively. -/
def removeUndefinedObj : List (String × Val) → List (String × Val)
  | [] => []
  | (k, v) :: fs =>
      if v.isUndef then removeUndefinedObj fs
      else (k, removeUndefinedValues v) :: removeUndefinedObj fs

end

mutual

/-- True when the value contains no undefined marker anywhere. -/
def noUndef : Val → Bool
  | Val.undef => false
  | Val.null => true
  | Val.num _ => true
  | Val.str _ => true
  | Val.bool _ => true
  | Val.arr xs => noUndefArr xs
  | Val.obj fs => noUndefObj fs

def noUndefArr : List Val → Bool
  | [] => true
  | v :: vs => noUndef v && noUndefArr vs

def noUndefObj : List (String × Val) → Bool
  | [] => true
  | (_, v) :: fs => noUndef v && noUndefObj fs

end

mutual

theorem noUndef_removeUndefinedValues :
    ∀ v : Val, noUndef (removeUndefinedValues v) = true
  | Val.undef => rfl
  | Val.null => rfl
  | Val.num _ => rfl
  | Val.str _ => rfl
  | Val.bool _ => rfl
  | Val.arr xs => by
      rw [removeUndefinedValues, noUndef]
      exact noUndefArr_removeUndefinedArr xs
  | Val.obj fs => by
      rw [removeUndefinedValues, noUndef]
      exact noUndefObj_removeUndefinedObj fs

theorem noUndefArr_removeUndefinedArr :
    ∀ xs : List Val, noUndefArr (removeUndefinedArr xs) = true
  | [] => rfl
  | v :: vs => by
      rw [removeUndefinedArr, noUndefArr,
        noUndef_removeUndefinedValues v, noUndefArr_removeUndefinedArr vs]
      rfl

theorem noUndefObj_removeUndefinedObj :
    ∀ fs : List (String × Val), noUndefObj (removeUndefinedObj fs) = true
  | [] => rfl
  | (k, v) :: fs => by
      rw [removeUndefinedObj]
      cases hu : v.isUndef
      · rw [if_neg (by simp [hu]), noUndefObj,
          noUndef_removeUndefinedValues v, noUndefObj_removeUndefinedObj fs]
        rfl
      · rw [if_pos (by simp [hu])]
        exact noUndefObj_removeUndefinedObj fs

end

/-- First field with the given key, mirroring JavaScript property lookup on
the ordered field list. -/
def lookupField : List (String × Val) → String → Option Val
  | [], _ => none
  | (k2, v) :: fs, k => if k2 = k then some v else lookupField fs k

/-- Modelled from the spec: the remote store's set-merge write
(`setDoc` with the merge flag, an external collaborator of the repo) --
shallow-merge of the supplied top-level fields into the stored document,
fields not supplied staying untouched. The document is modelled as a map
from field names to values. -/
def mergeDoc (old : String → Option Val) (patch : List (String × Val)) :
    String → Option Val :=
  fun k =>
    match lookupField patch k with
    | some v => some v
    | none => old k

/-- Embedding of `saveUserData` (part_007 lines 105-120): sanitize the
supplied partial snapshot with `removeUndefinedValues`, then set-merge it
into the stored document. -/
def saveUserData (old : String → Option Val) (data : List (String × Val)) :
    String → Option Val :=
  mergeDoc old (removeUndefinedObj data)

theorem lookupField_removeUndefinedObj_none (data : List (String × Val))
    (k : String) (h : lookupField data k = none) :
    lookupField (removeUndefinedObj data) k = none := by
  induction data with
  | nil => rfl
  | cons kv fs ih =>
      obtain ⟨k2, v⟩ := kv
      rw [lookupField] at h
      by_cases hk : k2 = k
      · rw [if_pos hk] at h; exact absurd h (by simp)
      · rw [if_neg hk] at h
        rw [removeUndefinedObj]
        cases hu : v.isUndef
        · rw [if_neg (by simp [hu]), lookupField, if_neg hk]; exact ih h
        · rw [if_pos (by simp [hu])]; exact ih h

/-- C9 counterexample: an object field whose value is the missing-value
marker is dropped from the written payload, not normalized to an explicit
null: sanitizing an object holding one undefined-valued field "a" yields the
empty object, which differs from the object holding a null-valued field "a". -/
theorem removeUndefined_drops_object_fields :
    removeUndefinedValues (Val.obj [("a", Val.undef)]) = Val.obj [] ∧
    removeUndefinedValues (Val.obj [("a", Val.undef)]) ≠
      Val.obj [("a", Val.null)] := by
  constructor
  · simp [removeUndefinedValues, removeUndefinedObj, Val.isUndef]
  · simp [removeUndefinedValues, removeUndefinedObj, Val.isUndef]

/-- C9 (amended): before every save-merge write the supplied partial snapshot
is recursively sanitized so the written payload contains no missing-value
marker; a wholly-undefined value and undefined array elements are normalized
to explicit null, while object fields whose value is undefined are dropped
(their key omitted) rather than normalized; fields not included in the
partial snapshot are not clobbered by the merge. -/
theorem saveUserData_sanitizes_and_merges (old : String → Option Val)
    (data : List (String × Val)) (k : String)
    (hk : lookupField data k = none) :
    noUndef (removeUndefinedValues (Val.obj data)) = true ∧
    saveUserData old data k = old k ∧
    removeUndefinedValues Val.undef = Val.null ∧
    (∀ xs : List Val,
      removeUndefinedArr (Val.undef :: xs) = Val.null :: removeUndefinedArr xs) ∧
    (∀ (fs : List (String × Val)) (k2 : String),
      removeUndefinedObj ((k2, Val.undef) :: fs) = removeUndefinedObj fs) := by
  refine ⟨noUndef_removeUndefinedValues _, ?_, rfl, ?_, ?_⟩
  · rw [saveUserData, mergeDoc, lookupField_removeUndefinedObj_none data k hk]
  · intro xs
    rw [removeUndefinedArr, removeUndefinedValues]
  · intro fs k2
    simp [removeUndefinedObj, Val.isUndef]

/-- Witness for the amended C9 at a concrete input: a patch holding an
undefined-valued field and a null field, merged over a document that has an
unrelated field. -/
theorem saveUserData_sanitizes_and_merges_witness :
    noUndef (removeUndefinedValues
      (Val.obj [("a", Val.undef), ("b", Val.null)])) = true ∧
    saveUserData (fun k => if k = "w" then some (Val.num 70) else none)
      [("a", Val.undef), ("b", Val.null)] "w" = some (Val.num 70) ∧
    removeUndefinedValues Val.undef = Val.null ∧
    (∀ xs : List Val,
      removeUndefinedArr (Val.undef :: xs) = Val.null :: removeUndefinedArr xs) ∧
    (∀ (fs : List (String × Val)) (k2 : String),
      removeUndefinedObj ((k2, Val.undef) :: fs) = removeUndefinedObj fs) := by
  have h := saveUserData_sanitizes_and_merges
    (fun k => if k = "w" then some (Val.num 70) else none)
    [("a", Val.undef), ("b", Val.null)] "w"
    (by rw [lookupField, if_neg (by decide), lookupField, if_neg (by decide)]; rfl)
  exact ⟨h.1, by rw [h.2.1]; simp, h.2.2.1, h.2.2.2.1, h.2.2.2.2⟩

end CalorieWise
